import Mathlib

/-!
Verification of the deterministic chart-synthesis engine of the
`stepageddon` repository (`backend/modules/step_generator`): a shallow
embedding in Lean 4 of the step-generation pipeline, and theorems settling
the stated properties of its specification.

Python floats are modelled as exact rationals (`ℚ`); Python's `int(...)`
truncation, its banker's `round(...)`, and its list-slicing semantics are
modelled explicitly below.
-/

set_option maxRecDepth 1500

namespace Stepageddon

/-- Floor of a rational, computed directly on the normalized
numerator/denominator so that it reduces inside the kernel. -/
def ratFloor (q : ℚ) : ℤ := Int.fdiv q.num q.den

/-- Python `int(q)`: truncation toward zero. -/
def pyInt (q : ℚ) : ℤ := if 0 ≤ q then ratFloor q else -ratFloor (-q)

/-- Python `round(q)`: round half to even (banker's rounding). -/
def pyRound (q : ℚ) : ℤ :=
  let n := ratFloor q
  let frac := q - n
  if frac < 1/2 then n
  else if 1/2 < frac then n + 1
  else if n % 2 = 0 then n else n + 1

/-- Absolute value of a rational (Python `abs`), written explicitly so that
it reduces inside the kernel. -/
def pyAbs (q : ℚ) : ℚ := if q < 0 then -q else q

/-- Python `min(a, b)` on rationals (returns the first argument on ties). -/
def pyMin (a b : ℚ) : ℚ := if a ≤ b then a else b

/-- Python `max(a, b)` on rationals (returns the first argument on ties). -/
def pyMax (a b : ℚ) : ℚ := if b ≤ a then a else b

/-- Python `min(a, b)` on integers. -/
def intMin (a b : ℤ) : ℤ := if a ≤ b then a else b

/-- Python `max(a, b)` on integers. -/
def intMax (a b : ℤ) : ℤ := if b ≤ a then a else b

/-- Python `round(q, d)`: rounding to `d` decimal places, half to even. -/
def roundTo (q : ℚ) (d : ℕ) : ℚ :=
  (pyRound (q * (Nat.pow 10 d : ℚ)) : ℚ) / (Nat.pow 10 d : ℚ)

/-- Python list slicing `xs[:k]` for an integer `k` (a negative bound counts
from the end of the list). -/
def pyTake (k : ℤ) (xs : List α) : List α :=
  if 0 ≤ k then xs.take k.toNat
  else xs.take (xs.length - (if xs.length ≤ k.natAbs then xs.length else k.natAbs))

/-- Python `min(xs, key=f, default=None)`: the first element of `xs` whose key
is minimal, or `none` when the list is empty. -/
def minByKey (f : α → ℚ) : List α → Option α
  | [] => none
  | x :: xs => some (xs.foldl (fun best y => if f y < f best then y else best) x)

/-- Time-derived pseudo-random seed `int(time * 100) % 100` used throughout
the generator (Python `%` on a positive modulus, i.e. `Int.emod`). -/
def timeSeed (t : ℚ) : ℤ := pyInt (t * 100) % 100

/-! ## Data model (from `backend/modules/step_generator/schemas.py`) -/

/-- Arrow directions (`Direction` enum). -/
inductive Direction where
  | left | down | up | right
deriving DecidableEq, Repr

/-- Step types (`StepType` enum). -/
inductive StepType where
  | tap | hold
deriving DecidableEq, Repr

/-- A single step (`Step` model): `hold_duration` is `none` for Python `None`. -/
structure Step where
  time : ℚ
  arrows : List Direction
  step_type : StepType
  hold_duration : Option ℚ
deriving DecidableEq, Repr

/-- A detected beat (`Beat` model). -/
structure Beat where
  time : ℚ
  strength : ℚ
  beat_type : String
  measure_position : ℤ
  is_strong : Bool
deriving DecidableEq, Repr

/-- An energy level over a time range (`EnergySection` model). -/
structure EnergySection where
  start_time : ℚ
  end_time : ℚ
  energy_level : ℚ
  intensity : String
deriving DecidableEq, Repr

/-- A sustained melodic note (`SustainedNote` model). -/
structure SustainedNote where
  start_time : ℚ
  end_time : ℚ
  pitch : ℚ
  confidence : ℚ
deriving DecidableEq, Repr

/-- Detected song structure (`SongStructure` model). -/
structure SongStructure where
  intro : ℚ × ℚ
  verses : List (ℚ × ℚ)
  choruses : List (ℚ × ℚ)
  bridge : ℚ × ℚ
  outro : ℚ × ℚ
  total_duration : ℚ
deriving DecidableEq, Repr

/-- Modelled from the spec: the `StepCandidate` record (`{time, source,
priority (integer rank, higher = more important), suggestedArrows (possibly
empty)}`).  The class is imported from `schemas` by `generator.py` and listed
in the module's exports, but its declaration is not present under `src/`. -/
structure StepCandidate where
  time : ℚ
  source : String
  priority : ℤ
  suggested_arrows : List Direction
deriving DecidableEq, Repr

/-- A complete chart (`Chart` model). -/
structure Chart where
  steps : List Step
  difficulty : String
  tempo : ℚ
  duration : ℚ
deriving DecidableEq, Repr

/-- Difficulty configuration record (`DifficultyConfig` model). -/
structure DifficultyConfig where
  name : String
  min_density : ℚ
  max_density : ℚ
  allow_singles : Bool
  allow_doubles : Bool
  allow_holds : Bool
  hold_percentage : ℚ
  min_hold_duration : ℚ
  max_hold_duration : ℚ
  use_downbeats : Bool
  use_upbeats : Bool
  use_offbeats : Bool
  use_8th_notes : Bool
  use_16th_notes : Bool
  use_onsets : Bool
  onset_threshold : ℚ
  max_consecutive_jumps : ℤ
  max_stream_length : ℤ
  allow_crossovers : Bool
  allow_brackets : Bool
  energy_scale_factor : ℚ
deriving DecidableEq, Repr

/-- Pydantic construction of a `Step` (`Step.validate_hold_duration`):
building a step whose `step_type`/`hold_duration` pairing is inconsistent
raises a `ValidationError`, modelled as `none`. -/
def mk_step (time : ℚ) (arrows : List Direction) (step_type : StepType)
    (hold_duration : Option ℚ) : Option Step :=
  match step_type, hold_duration with
  | StepType.hold, none => none
  | StepType.tap, some _ => none
  | _, _ => some ⟨time, arrows, step_type, hold_duration⟩

/-! ## Difficulty presets (from `difficulty.py`) -/

/-- The `beginner` preset. -/
def beginner_config : DifficultyConfig :=
  { name := "beginner", min_density := 0.6, max_density := 1.2,
    allow_singles := true, allow_doubles := false, allow_holds := true,
    hold_percentage := 0.15, min_hold_duration := 0.8, max_hold_duration := 2.0,
    use_downbeats := true, use_upbeats := false, use_offbeats := false,
    use_8th_notes := false, use_16th_notes := false,
    use_onsets := false, onset_threshold := 0.3,
    max_consecutive_jumps := 0, max_stream_length := 0,
    allow_crossovers := false, allow_brackets := false,
    energy_scale_factor := 0.3 }

/-- The `intermediate` preset. -/
def intermediate_config : DifficultyConfig :=
  { name := "intermediate", min_density := 1.3, max_density := 2.3,
    allow_singles := true, allow_doubles := true, allow_holds := true,
    hold_percentage := 0.20, min_hold_duration := 0.6, max_hold_duration := 3.0,
    use_downbeats := true, use_upbeats := true, use_offbeats := true,
    use_8th_notes := true, use_16th_notes := false,
    use_onsets := false, onset_threshold := 0.3,
    max_consecutive_jumps := 2, max_stream_length := 6,
    allow_crossovers := true, allow_brackets := false,
    energy_scale_factor := 0.6 }

/-- The `expert` preset. -/
def expert_config : DifficultyConfig :=
  { name := "expert", min_density := 2.2, max_density := 4.0,
    allow_singles := true, allow_doubles := true, allow_holds := true,
    hold_percentage := 0.25, min_hold_duration := 0.5, max_hold_duration := 4.0,
    use_downbeats := true, use_upbeats := true, use_offbeats := true,
    use_8th_notes := true, use_16th_notes := true,
    use_onsets := false, onset_threshold := 0.3,
    max_consecutive_jumps := 4, max_stream_length := 16,
    allow_crossovers := true, allow_brackets := true,
    energy_scale_factor := 1.0 }

/-- The `DIFFICULTY_PRESETS` table, as a lookup by name. -/
def DIFFICULTY_PRESETS (difficulty : String) : Option DifficultyConfig :=
  if difficulty = "beginner" then some beginner_config
  else if difficulty = "intermediate" then some intermediate_config
  else if difficulty = "expert" then some expert_config
  else none

/-- Validated preset lookup (`get_difficulty_config`): raising `ValueError`
on an unknown name is modelled with `Except`. -/
def get_difficulty_config (difficulty : String) : Except String DifficultyConfig :=
  match DIFFICULTY_PRESETS difficulty with
  | some cfg => Except.ok cfg
  | none => Except.error ("Unknown difficulty " ++ difficulty)

/-! ## Grid quantization (from `audio_analysis.py`, `quantize_to_grid`) -/

/-- Removal of duplicates while preserving order, keeping the value rounded to
4 decimals (the `seen` / `unique` loop of `quantize_to_grid`). -/
def dedup_round4 (ts : List ℚ) : List ℚ :=
  ts.foldl (fun acc t => if roundTo t 4 ∈ acc then acc else acc ++ [roundTo t 4]) []

/-- Grid unit duration of `quantize_to_grid`:
`beat_duration / (grid_division / 4)` with `beat_duration = 60 / tempo`. -/
def grid_spacing (tempo grid_division : ℚ) : ℚ := 60 / tempo / (grid_division / 4)

/-- Snap of one time to the nearest grid position
(`round(t / grid_spacing) * grid_spacing`). -/
def grid_snap (tempo grid_division t : ℚ) : ℚ :=
  (pyRound (t / grid_spacing tempo grid_division) : ℚ) * grid_spacing tempo grid_division

/-- Quantization of times to the musical grid (`quantize_to_grid`). -/
def quantize_to_grid (times : List ℚ) (tempo : ℚ) (grid_division : ℚ) : List ℚ :=
  if times = [] ∨ tempo ≤ 0 then times
  else
    (dedup_round4 (times.map (grid_snap tempo grid_division))).insertionSort (· ≤ ·)

/-! ## Energy peaks (from `audio_analysis.py`, `detect_energy_peaks`) -/

/-- List indexing with the out-of-range default 0 (only applied in range). -/
def xget (xs : List ℚ) (i : ℕ) : ℚ := xs.getD i 0

/-- Modelled from the spec: plateau scan of `scipy.signal.find_peaks` (the
`i_ahead` loop), advancing while the value equals `v` below `i_max`. -/
def plateau_scan (xs : List ℚ) (v : ℚ) (i_max : ℕ) : ℕ → ℕ → ℕ
  | 0, i => i
  | fuel + 1, i =>
    if i < i_max ∧ xget xs i = v then plateau_scan xs v i_max fuel (i + 1) else i

/-- Modelled from the spec: the local-maxima scan of `scipy.signal.find_peaks`
(interior maxima, plateau midpoints). -/
def local_maxima_go (xs : List ℚ) (i_max : ℕ) : ℕ → ℕ → List ℕ
  | 0, _ => []
  | fuel + 1, i =>
    if i < i_max then
      if xget xs (i - 1) < xget xs i then
        let i_ahead := plateau_scan xs (xget xs i) i_max xs.length (i + 1)
        if xget xs i_ahead < xget xs i then
          ((i + (i_ahead - 1)) / 2) :: local_maxima_go xs i_max fuel (i_ahead + 1)
        else local_maxima_go xs i_max fuel (i + 1)
      else local_maxima_go xs i_max fuel (i + 1)
    else []

/-- Indices of interior local maxima of `xs`. -/
def local_maxima (xs : List ℚ) : List ℕ := local_maxima_go xs (xs.length - 1) xs.length 1

/-- Modelled from the spec: distance pruning of `scipy.signal.find_peaks`
(`distance` parameter): peaks are visited from highest to lowest priority and
each surviving peak removes all other peaks fewer than `dist` samples away. -/
def select_by_peak_distance (peaks : List ℕ) (dist : ℕ) (priority : List ℚ) : List Bool :=
  let m := peaks.length
  let pget := fun i => peaks.getD i 0
  let order := ((List.range m).insertionSort (fun a b => xget priority a ≤ xget priority b)).reverse
  order.foldl (fun keep j =>
    if keep.getD j true then
      (List.range m).map (fun k =>
        if k ≠ j ∧ ((if pget k ≤ pget j then pget j - pget k else pget k - pget j) < dist)
        then false
        else keep.getD k true)
    else keep) (List.replicate m true)

/-- Peak energy moments (`detect_energy_peaks`): local maxima of the sections'
energy levels with height ≥ 0.7 and index distance ≥ 4, mapped to the
corresponding section start times. -/
def detect_energy_peaks (sections : List EnergySection) : List ℚ :=
  let energies := sections.map (·.energy_level)
  let times := sections.map (·.start_time)
  let maxima := local_maxima energies
  let peaks := maxima.filter (fun p => decide ((0.7 : ℚ) ≤ xget energies p))
  let keep := select_by_peak_distance peaks 4 (peaks.map (fun p => xget energies p))
  ((peaks.zip keep).filter (fun pk => pk.2)).map (fun pk => xget times pk.1)

/-! ## Step generator (from `generator.py`) -/

/-- Beats admitted by the difficulty's beat-type switches (`_filter_beats`). -/
def filter_beats (cfg : DifficultyConfig) (beats : List Beat) : List ℚ :=
  beats.filterMap fun beat =>
    if beat.beat_type = "downbeat" ∧ cfg.use_downbeats then some beat.time
    else if beat.beat_type = "upbeat" ∧ cfg.use_upbeats then some beat.time
    else if beat.beat_type = "offbeat" ∧ cfg.use_offbeats then some beat.time
    else none

/-- Deterministic pitch-to-lane mapping (`_pitch_to_arrow`). -/
def pitch_to_arrow (pitch : ℚ) : Direction :=
  if pitch < 60 then (if pitch < 55 then .left else .down)
  else (if pitch < 70 then .up else .right)

/-- Hold produced for one sustained note on the beat path (loop body of
`_place_holds`).  Python's `if nearest_beat and ...` treats a beat at time
`0.0` as falsy. -/
def hold_for_note (cfg : DifficultyConfig) (available_beats : List ℚ)
    (note : SustainedNote) : Option Step :=
  if cfg.min_hold_duration ≤ note.end_time - note.start_time ∧
      note.end_time - note.start_time ≤ cfg.max_hold_duration then
    match minByKey (fun b => pyAbs (b - note.start_time)) available_beats with
    | some nearest_beat =>
      if nearest_beat ≠ 0 ∧ pyAbs (nearest_beat - note.start_time) < 0.2 then
        some ⟨nearest_beat, [pitch_to_arrow note.pitch], .hold,
              some (pyMin (note.end_time - note.start_time) cfg.max_hold_duration)⟩
      else none
    | none => none
  else none

/-- Hold placement on the beat path (`_place_holds`). -/
def place_holds (cfg : DifficultyConfig) (sustained_notes : List SustainedNote)
    (available_beats : List ℚ) : List Step :=
  pyTake (pyInt ((available_beats.length : ℚ) * cfg.hold_percentage))
    (sustained_notes.filterMap (hold_for_note cfg available_beats))

/-- Python dict comprehension `{round(c.time, 3): c for c in step_candidates}`:
association list in first-insertion key order with last-wins values. -/
def build_candidate_map (cs : List StepCandidate) : List (ℚ × StepCandidate) :=
  cs.foldl (fun acc c =>
    let key := roundTo c.time 3
    if acc.any (fun kv => kv.1 = key) then
      acc.map (fun kv => if kv.1 = key then (key, c) else kv)
    else acc ++ [(key, c)]) []

/-- Dictionary lookup `candidate_map[k]`. -/
def map_get (m : List (ℚ × StepCandidate)) (k : ℚ) : Option StepCandidate :=
  (m.find? (fun kv => kv.1 = k)).map (·.2)

/-- Hold produced for one sustained note on the source-candidate path (loop
body of `_place_holds_with_sources`). -/
def hold_for_note_sources (cfg : DifficultyConfig) (candidate_map : List (ℚ × StepCandidate))
    (note : SustainedNote) : Option Step :=
  if cfg.min_hold_duration ≤ note.end_time - note.start_time ∧
      note.end_time - note.start_time ≤ cfg.max_hold_duration then
    match minByKey (fun t => pyAbs (t - note.start_time)) (candidate_map.map Prod.fst) with
    | some nearest_time =>
      if nearest_time ≠ 0 ∧ pyAbs (nearest_time - note.start_time) < 0.2 then
        match map_get candidate_map nearest_time with
        | some candidate =>
          some ⟨nearest_time,
                [match candidate.suggested_arrows with
                 | a :: _ => a
                 | [] => pitch_to_arrow note.pitch], .hold,
                some (pyMin (note.end_time - note.start_time) cfg.max_hold_duration)⟩
        | none => none
      else none
    | none => none
  else none

/-- Hold placement on the source-candidate path (`_place_holds_with_sources`). -/
def place_holds_with_sources (cfg : DifficultyConfig) (sustained_notes : List SustainedNote)
    (step_candidates : List StepCandidate) : List Step :=
  pyTake (pyInt ((step_candidates.length : ℚ) * cfg.hold_percentage))
    (sustained_notes.filterMap (hold_for_note_sources cfg (build_candidate_map step_candidates)))

/-- Does a hold in `hold_steps` occupy lane `d` at time `t`
(`_get_held_arrows_at_time`, as a membership test)?  Python's
`and step.hold_duration` treats a 0.0 duration as falsy. -/
def is_held (hold_steps : List Step) (t : ℚ) (d : Direction) : Bool :=
  hold_steps.any fun s =>
    match s.step_type, s.hold_duration with
    | StepType.hold, some dur =>
        decide (dur ≠ 0) && decide (s.time ≤ t) && decide (t ≤ s.time + dur + 0.05)
          && decide (d ∈ s.arrows)
    | _, _ => false

/-- Foot-alternating, usage-balancing, held-lane-avoiding arrow choice
(`_choose_spread_arrow`). -/
def choose_spread_arrow (prev : Option Direction) (counts : Direction → ℕ)
    (current_time : ℚ) (held : Direction → Bool) : Direction :=
  let left_foot : List Direction := [.left, .down]
  let right_foot : List Direction := [.up, .right]
  let all_arrows : List Direction := [.left, .down, .up, .right]
  let available0 := all_arrows.filter (fun d => !held d)
  let available := if available0 = [] then all_arrows else available0
  match prev with
  | none => (minByKey (fun d => (counts d : ℚ)) available).getD .left
  | some p =>
    let last_was_left := p = Direction.left ∨ p = Direction.down
    let fo1 := (if last_was_left then right_foot else left_foot).filter (fun d => !held d)
    let fo2 := if fo1 = [] then
        (if last_was_left then left_foot else right_foot).filter (fun d => !held d)
      else fo1
    let fo3 := if fo2 = [] then available else fo2
    match fo3 with
    | [o] => o
    | o0 :: o1 :: _ =>
      let seed := timeSeed current_time
      if counts o0 < counts o1 then (if seed < 70 then o0 else o1)
      else if counts o1 < counts o0 then (if seed < 70 then o1 else o0)
      else (if seed < 50 then o0 else o1)
    | [] => .left

/-- Walk of `_candidates_to_steps` over the time-sorted candidates, carrying
the previous arrow and per-lane usage counts. -/
def candidates_to_steps_go (hold_steps : List Step) : Option Direction → (Direction → ℕ) →
    List StepCandidate → List Step
  | _, _, [] => []
  | prev, counts, c :: cs =>
    let arrow := choose_spread_arrow prev counts c.time (is_held hold_steps c.time)
    ⟨c.time, [arrow], .tap, none⟩ ::
      candidates_to_steps_go hold_steps (some arrow)
        (fun d => if d = arrow then counts d + 1 else counts d) cs

/-- Conversion of selected candidates to single-tap steps
(`_candidates_to_steps`; the intensity argument is unused in the source). -/
def candidates_to_steps (candidates : List StepCandidate) (intensity : String)
    (hold_steps : List Step) : List Step :=
  let _ := intensity
  candidates_to_steps_go hold_steps none (fun _ => 0)
    (candidates.insertionSort (fun a b => a.time ≤ b.time))

/-- Partner lane for promoting a single tap to a jump (`_get_jump_partner`). -/
def get_jump_partner : Direction → Direction
  | .left => .right
  | .right => .left
  | .down => .up
  | .up => .down

/-- Jump template (`PatternTemplate.jump_pattern`). -/
def jump_pattern (start_time : ℚ) (jump_type : String) : Step :=
  let arrows : List Direction :=
    if jump_type = "corners" then [.left, .down]
    else if jump_type = "brackets" then [.left, .right]
    else if jump_type = "middle" then [.down, .up]
    else if jump_type = "diagonal1" then [.left, .up]
    else if jump_type = "diagonal2" then [.down, .right]
    else [.left, .down]
  ⟨start_time, arrows, .tap, none⟩

/-- Deterministic pattern choice by time seed and intensity (`_choose_pattern`;
the structure and existing-steps arguments are unused in the source). -/
def choose_pattern (cfg : DifficultyConfig) (time : ℚ) (intensity : String) : String :=
  let seed := timeSeed time
  if intensity = "climax" then
    if seed < 40 ∧ 0 < cfg.max_stream_length then "stream"
    else if seed < 90 ∧ cfg.allow_doubles then "jump"
    else "single"
  else if intensity = "high" then
    if seed < 25 ∧ 0 < cfg.max_stream_length then "stream"
    else if seed < 60 ∧ cfg.allow_doubles then "jump"
    else if seed < 80 ∧ cfg.allow_crossovers then "crossover"
    else "single"
  else if intensity = "medium" then
    if seed < 30 ∧ cfg.allow_doubles then "jump"
    else if seed < 50 ∧ cfg.allow_crossovers then "crossover"
    else "single"
  else "single"

/-- Foot-alternating single-arrow choice on the beat path
(`_choose_single_arrow`). -/
def choose_single_arrow (existing_steps : List Step) (current_time : ℚ) : Direction :=
  match existing_steps.getLast? with
  | none => .left
  | some last_step =>
    let last_arrow := last_step.arrows.getLast?.getD .left
    let last_was_left := last_arrow = Direction.left ∨ last_arrow = Direction.down
    let seed := timeSeed current_time
    if last_was_left then (if seed < 60 then .up else .right)
    else (if seed < 60 then .left else .down)

/-- Stream emission inside `_generate_patterns`: `j` counts emitted members,
the seed time is extrapolated as `time + j * interval` while the step times
are the actual beat times. -/
def stream_go (t0 interval : ℚ) : ℕ → ℕ → List ℚ → List Step → List Step
  | _, 0, _, acc => acc
  | _, _ + 1, [], acc => acc
  | j, n + 1, b :: bs, acc =>
    let arrow := choose_single_arrow acc (t0 + (j : ℚ) * interval)
    stream_go t0 interval (j + 1) n bs (acc ++ [⟨b, [arrow], .tap, none⟩])

/-- Non-stream arm of the `_generate_patterns` loop body: returns the new
step list and the number of beats consumed. -/
def gp_nonstream (cfg : DifficultyConfig) (acc : List Step) (b0 : ℚ) (rest : List ℚ)
    (choice : String) : List Step × ℕ :=
  if choice = "jump" ∧ cfg.allow_doubles then
    let seed := pyInt (b0 * 100) % 3
    let arrows : List Direction :=
      if seed = 0 then [.left, .right]
      else if seed = 1 then [.down, .up]
      else [.left, .up]
    (acc ++ [⟨b0, arrows, .tap, none⟩], 1)
  else if choice = "crossover" ∧ cfg.allow_crossovers then
    match rest with
    | c1 :: c2 :: c3 :: _ =>
      (acc ++ [⟨b0, [.left], .tap, none⟩, ⟨c1, [.right], .tap, none⟩,
               ⟨c2, [.left], .tap, none⟩, ⟨c3, [.right], .tap, none⟩], 4)
    | _ => (acc ++ [⟨b0, [choose_single_arrow acc b0], .tap, none⟩], 1)
  else (acc ++ [⟨b0, [choose_single_arrow acc b0], .tap, none⟩], 1)

/-- Main loop of `_generate_patterns` (fuel-indexed; each iteration consumes
at least one beat, so fuel equal to the list length suffices). -/
def generate_patterns_go (cfg : DifficultyConfig) (intensity : String) :
    ℕ → List ℚ → List Step → List Step
  | 0, _, acc => acc
  | _ + 1, [], acc => acc
  | fuel + 1, b0 :: rest, acc =>
    let choice := choose_pattern cfg b0 intensity
    match rest with
    | b1 :: b2 :: b3 :: b4 :: _ =>
      if choice = "stream" then
        let i1 := b1 - b0
        let i2 := b2 - b1
        let i3 := b3 - b2
        let i4 := b4 - b3
        let mx := pyMax (pyMax i1 i2) (pyMax i3 i4)
        let mn := pyMin (pyMin i1 i2) (pyMin i3 i4)
        if mx - mn < 0.05 then
          let slen := (intMin cfg.max_stream_length ((b0 :: rest).length : ℤ)).toNat
          let acc2 := stream_go b0 i1 0 slen (b0 :: rest) acc
          generate_patterns_go cfg intensity fuel ((b0 :: rest).drop slen) acc2
        else
          generate_patterns_go cfg intensity fuel rest
            (acc ++ [⟨b0, [choose_single_arrow acc b0], .tap, none⟩])
      else
        let g := gp_nonstream cfg acc b0 rest choice
        generate_patterns_go cfg intensity fuel ((b0 :: rest).drop g.2) g.1
    | _ =>
      if choice = "stream" then
        generate_patterns_go cfg intensity fuel rest
          (acc ++ [⟨b0, [choose_single_arrow acc b0], .tap, none⟩])
      else
        let g := gp_nonstream cfg acc b0 rest choice
        generate_patterns_go cfg intensity fuel ((b0 :: rest).drop g.2) g.1

/-- Pattern synthesis for one energy section (`_generate_patterns`; the
structure argument is unused in the source). -/
def generate_patterns (cfg : DifficultyConfig) (beat_times : List ℚ)
    (intensity : String) : List Step :=
  let bts := beat_times.insertionSort (· ≤ ·)
  generate_patterns_go cfg intensity bts.length bts []

/-- Strength lookup `{b.time: b.strength for b in all_beats}.get(t, 0)`
(later beats with an equal time overwrite earlier ones). -/
def strengthOf (all_beats : List Beat) (t : ℚ) : ℚ :=
  match all_beats.reverse.find? (fun b => b.time = t) with
  | some b => b.strength
  | none => 0

/-- Selection of the strongest beats of a section (`_select_beats_by_energy`). -/
def select_beats_by_energy (cfg : DifficultyConfig) (section_beats : List ℚ)
    (all_beats : List Beat) (target_count : ℤ) : List ℚ :=
  if cfg.use_onsets then pyTake target_count (section_beats.insertionSort (· ≤ ·))
  else
    pyTake target_count
      (section_beats.insertionSort (fun a b => strengthOf all_beats b ≤ strengthOf all_beats a))

/-- Removal of the first occurrence of `x` (Python `list.remove`). -/
def erase_first (x : ℚ) : List ℚ → List ℚ
  | [] => []
  | y :: ys => if y = x then ys else y :: erase_first x ys

/-- Candidate beat list entering `_generate_from_beats` (onset choice,
beat-type filtering, subdivision merge via `sorted(set(...))`).  Python's
falsy `None`/empty `onset_times` are both modelled as `[]`. -/
def gfb_available (cfg : DifficultyConfig) (beats : List Beat) (subdivisions : List ℚ)
    (onset_times : List ℚ) : List ℚ :=
  let available0 :=
    if cfg.use_onsets ∧ onset_times ≠ [] then onset_times else filter_beats cfg beats
  if cfg.use_8th_notes ∨ cfg.use_16th_notes then
    ((available0 ++ subdivisions).foldl
      (fun acc x => if x ∈ acc then acc else acc ++ [x]) []).insertionSort (· ≤ ·)
  else available0

/-- Phase 1 of `_generate_from_beats`: hold placement and removal of the
beats used by holds. -/
def gfb_phase1 (cfg : DifficultyConfig) (sustained_notes : List SustainedNote)
    (available1 : List ℚ) : List Step × List ℚ :=
  if cfg.allow_holds ∧ sustained_notes ≠ [] then
    let hold_steps := place_holds cfg sustained_notes available1
    (hold_steps, available1.filter (fun b : ℚ => !decide (b ∈ hold_steps.map (·.time))))
  else ([], available1)

/-- Phase 2 of `_generate_from_beats`: jump accents on energy peaks. -/
def gfb_phase2 (cfg : DifficultyConfig) (energy_sections : List EnergySection)
    (p : List Step × List ℚ) : List Step × List ℚ :=
  (detect_energy_peaks energy_sections).foldl (fun sa peak_time =>
    match minByKey (fun b => pyAbs (b - peak_time)) sa.2 with
    | some nearest =>
      if nearest ≠ 0 ∧ pyAbs (nearest - peak_time) < 0.1 then
        if cfg.allow_doubles then
          (sa.1 ++ [jump_pattern nearest "corners"], erase_first nearest sa.2)
        else sa
      else sa
    | none => sa) p

/-- Phase 3 of `_generate_from_beats`: per-section density selection and
pattern fill. -/
def gfb_phase3 (cfg : DifficultyConfig) (beats : List Beat)
    (energy_sections : List EnergySection) (p : List Step × List ℚ) : List Step :=
  energy_sections.foldl (fun steps sec =>
    let section_beats := p.2.filter
      (fun b => decide (sec.start_time ≤ b) && decide (b ≤ sec.end_time))
    let section_target : ℤ :=
      if cfg.use_onsets then
        pyInt ((section_beats.length : ℚ) * (0.8 + sec.energy_level * 0.2))
      else
        intMin (pyInt ((section_beats.length : ℚ) *
              (1 + (sec.energy_level - 0.5) * cfg.energy_scale_factor)))
            (section_beats.length : ℤ)
    steps ++ generate_patterns cfg
      (select_beats_by_energy cfg section_beats beats section_target) sec.intensity) p.1

/-- Beat-based generation (`_generate_from_beats`): the three phases (holds,
energy-peak jumps, per-section pattern fill). -/
def generate_from_beats (cfg : DifficultyConfig) (beats : List Beat)
    (subdivisions : List ℚ) (energy_sections : List EnergySection)
    (sustained_notes : List SustainedNote) (onset_times : List ℚ) : List Step :=
  gfb_phase3 cfg beats energy_sections
    (gfb_phase2 cfg energy_sections
      (gfb_phase1 cfg sustained_notes (gfb_available cfg beats subdivisions onset_times)))

/-- Phase 1 of `_generate_from_sources`: the placed hold steps. -/
def gfs_holds (cfg : DifficultyConfig) (step_candidates : List StepCandidate)
    (sustained_notes : List SustainedNote) : List Step :=
  if cfg.allow_holds ∧ sustained_notes ≠ [] then
    place_holds_with_sources cfg sustained_notes step_candidates
  else []

/-- Phase 2 of `_generate_from_sources`: per-section density filtering,
priority ranking and candidate-to-step conversion, threading the used-times
set (`used_times` starts as the raw hold times, later entries are rounded). -/
def gfs_phase2 (cfg : DifficultyConfig) (step_candidates : List StepCandidate)
    (hold_steps : List Step) (energy_sections : List EnergySection) :
    List Step × List ℚ :=
  energy_sections.foldl (fun (su : List Step × List ℚ) sec =>
    let section_candidates := step_candidates.filter (fun c =>
      decide (sec.start_time ≤ c.time) && decide (c.time ≤ sec.end_time)
        && !decide (roundTo c.time 3 ∈ su.2))
    if section_candidates = [] then su
    else
      let base_usage0 := 0.5 + sec.energy_level * 0.4
      let base_usage :=
        if cfg.name = "beginner" then base_usage0 * 0.4
        else if cfg.name = "expert" then base_usage0 * 1.2
        else base_usage0
      let target_count := intMax 1 (pyInt ((section_candidates.length : ℚ) * base_usage))
      let sorted_candidates :=
        section_candidates.insertionSort (fun a b => (-a.priority : ℤ) ≤ -b.priority)
      let section_steps :=
        candidates_to_steps (pyTake target_count sorted_candidates) sec.intensity hold_steps
      (su.1 ++ section_steps, su.2 ++ section_steps.map (fun s => roundTo s.time 3)))
    (hold_steps, hold_steps.map (·.time))

/-- Phase 3 of `_generate_from_sources`: jump promotion near energy peaks.
The Python loop mutates step objects shared with `hold_steps`; those objects
are exactly the first `hold_count` entries of the step list and only their
arrows change, so the held-lane set is read from that prefix. -/
def gfs_phase3 (cfg : DifficultyConfig) (energy_sections : List EnergySection)
    (hold_count : ℕ) (steps0 : List Step) : List Step :=
  if cfg.allow_doubles then
    (detect_energy_peaks energy_sections).foldl (fun steps peak_time =>
      match steps.findIdx? (fun s => decide (pyAbs (s.time - peak_time) < 0.1)) with
      | some i =>
        match steps[i]? with
        | some st =>
          if st.arrows.length = 1 then
            if is_held (steps.take hold_count) peak_time
                (get_jump_partner (st.arrows.headD .left)) then steps
            else steps.set i { st with arrows := st.arrows ++ [get_jump_partner (st.arrows.headD .left)] }
          else steps
        | none => steps
      | none => steps) steps0
  else steps0

/-- Source-candidate generation (`_generate_from_sources`): hold placement,
per-section density selection, and energy-peak jump promotion. -/
def generate_from_sources (cfg : DifficultyConfig) (step_candidates : List StepCandidate)
    (energy_sections : List EnergySection) (sustained_notes : List SustainedNote) :
    List Step :=
  gfs_phase3 cfg energy_sections (gfs_holds cfg step_candidates sustained_notes).length
    (gfs_phase2 cfg step_candidates (gfs_holds cfg step_candidates sustained_notes)
      energy_sections).1

/-! ## Structural shaping and validation (from `generator.py`) -/

/-- Intro thinning rule (`_keep_intro_step`). -/
def keep_intro_step (s : Step) : Bool := decide (pyInt (s.time * 100) % 10 < 3)

/-- Outro thinning rule (`_keep_outro_step`). -/
def keep_outro_step (s : Step) : Bool := decide (pyInt (s.time * 100) % 10 < 4)

/-- Structure-aware thinning of intro and outro windows
(`_adjust_for_structure`). -/
def adjust_for_structure (steps : List Step) (structure_ : SongStructure) : List Step :=
  let steps1 := steps.filter (fun s =>
    !(decide (structure_.intro.1 ≤ s.time) && decide (s.time ≤ structure_.intro.2))
      || keep_intro_step s)
  steps1.filter (fun s =>
    !(decide (structure_.outro.1 ≤ s.time) && decide (s.time ≤ structure_.outro.2))
      || keep_outro_step s)

/-- Per-difficulty minimum inter-step gap (`_get_min_gap`; unknown names take
the dictionary default 0.15). -/
def get_min_gap (cfg : DifficultyConfig) : ℚ :=
  if cfg.name = "beginner" then 0.35
  else if cfg.name = "intermediate" then 0.15
  else if cfg.name = "expert" then 0.08
  else 0.15

/-- Arrow repair in `_validate_chart`: truncation to 4 arrows, and forcing a
single arrow on the beginner tier. -/
def repair_arrows (cfg : DifficultyConfig) (s : Step) : Step :=
  let a1 := if 4 < s.arrows.length then s.arrows.take 4 else s.arrows
  let a2 := if cfg.name = "beginner" ∧ 1 < a1.length then a1.take 1 else a1
  { s with arrows := a2 }

/-- Hold repair in `_validate_chart`: demotion of sub-minimum holds to taps
and clamping of over-maximum durations.  A hold with no duration would raise
in Python (`None < float`); that branch is unreachable in the pipeline as
every constructed hold carries a duration (see the C9 theorem). -/
def repair_hold (cfg : DifficultyConfig) (s : Step) : Step :=
  if s.step_type = StepType.hold then
    match s.hold_duration with
    | some d =>
      if d < cfg.min_hold_duration then { s with step_type := .tap, hold_duration := none }
      else if cfg.max_hold_duration < d then { s with hold_duration := some cfg.max_hold_duration }
      else s
    | none => s
  else s

/-- Combined per-step repair applied by `_validate_chart` to every kept step,
in source order: arrow truncation, then hold repair. -/
def repair_step (cfg : DifficultyConfig) (s : Step) : Step :=
  repair_hold cfg (repair_arrows cfg s)

/-- Walk of `_validate_chart`: `none` marks index 0 (nothing validated yet);
afterwards the last kept step is carried.  In the source the duplicate and
gap checks test `i > 0`, which is equivalent since the step at index 0 is
always kept. -/
def validate_go (cfg : DifficultyConfig) : Option Step → List Step → List Step
  | _, [] => []
  | none, s :: rest =>
    repair_step cfg s :: validate_go cfg (some (repair_step cfg s)) rest
  | some prev, s :: rest =>
    if pyAbs (s.time - prev.time) < 0.01 then validate_go cfg (some prev) rest
    else if s.time - prev.time < get_min_gap cfg then validate_go cfg (some prev) rest
    else repair_step cfg s :: validate_go cfg (some (repair_step cfg s)) rest

/-- Validator / repair stage (`_validate_chart`; identical in
`generator.py` and `services/step_generator_new.py`). -/
def validate_chart (cfg : DifficultyConfig) (steps : List Step) : List Step :=
  validate_go cfg none steps

/-- Main chart generation (`generate_chart`): strategy dispatch, stable sort
by time, structural shaping, validation. -/
def generate_chart (cfg : DifficultyConfig) (beats : List Beat) (subdivisions : List ℚ)
    (energy_sections : List EnergySection) (sustained_notes : List SustainedNote)
    (structure_ : SongStructure) (tempo : ℚ) (onset_times : List ℚ)
    (step_candidates : List StepCandidate) : Chart :=
  let steps0 :=
    if step_candidates ≠ [] then
      generate_from_sources cfg step_candidates energy_sections sustained_notes
    else
      generate_from_beats cfg beats subdivisions energy_sections sustained_notes onset_times
  let steps1 := steps0.insertionSort (fun a b => a.time ≤ b.time)
  let steps2 := adjust_for_structure steps1 structure_
  let steps3 := validate_chart cfg steps2
  ⟨steps3, cfg.name, tempo, structure_.total_duration⟩

/-! ## Pipeline entry (from `pipeline.py`) -/

/-- Modelled from the spec: the Feature Extractor's output bundle (input
contract of §6); the extraction stages themselves are external collaborators
and not part of this development. -/
structure AnalysisData where
  beats : List Beat
  subdivisions : List ℚ
  energy_sections : List EnergySection
  sustained_notes : List SustainedNote
  song_structure : SongStructure
  tempo : ℚ
  onset_times : List ℚ
  step_candidates : List StepCandidate

/-- Pipeline entry (`ChartGenerationPipeline.generate_from_audio`): the preset
lookup `DIFFICULTY_PRESETS[difficulty]` precedes every generation stage; an
unknown name raises a lookup error, modelled as `none`, and no chart is
produced. -/
def generate_from_audio (a : AnalysisData) (difficulty : String) : Option Chart :=
  match DIFFICULTY_PRESETS difficulty with
  | none => none
  | some config =>
    some (generate_chart config a.beats a.subdivisions a.energy_sections
      a.sustained_notes a.song_structure a.tempo a.onset_times a.step_candidates)

/-! ## Helper lemmas -/

/-- Well-formedness of a step: the `step_type`/`hold_duration` pairing is
consistent (pydantic's construction invariant of `Step`). -/
def StepOK (s : Step) : Prop := s.step_type = StepType.hold ↔ s.hold_duration.isSome

/-- Shape invariant of every step built by the generation phases: a
consistent hold pairing and a non-empty arrow list. -/
def gen_ok (s : Step) : Prop := StepOK s ∧ s.arrows ≠ []

/-- Held-lane exclusivity of a step list, as stated by the specification: no
tap step whose time lies within a hold's `[time, time + duration + 0.05]`
interval selects a lane of that hold. -/
def held_lane_exclusive (steps : List Step) : Bool :=
  steps.all fun h =>
    match h.step_type, h.hold_duration with
    | StepType.hold, some dur =>
      steps.all fun s =>
        !(s.step_type == StepType.tap) ||
        !(decide (h.time ≤ s.time) && decide (s.time ≤ h.time + dur + 0.05)) ||
        s.arrows.all (fun d => !decide (d ∈ h.arrows))
    | _, _ => true

/-- Example beat track: five downbeats at 1.0 … 1.8 s. -/
def ex_beats : List Beat :=
  [⟨1.0, 0.5, "downbeat", 0, true⟩, ⟨1.2, 0.9, "downbeat", 0, true⟩,
   ⟨1.4, 0.8, "downbeat", 0, true⟩, ⟨1.6, 0.7, "downbeat", 0, true⟩,
   ⟨1.8, 0.1, "downbeat", 0, true⟩]

/-- Example energy classification: one low-energy section covering the track. -/
def ex_sections : List EnergySection := [⟨0, 10, 0.2, "low"⟩]

/-- Example sustained note of duration 1 s starting on the first beat,
pitch 50 (mapped to the left lane). -/
def ex_notes : List SustainedNote := [⟨1.0, 2.0, 50, 0.9⟩]

/-- Example song structure with empty intro and outro windows. -/
def ex_structure : SongStructure := ⟨(0, 0), [], [], (0, 0), (0, 0), 10⟩

/-- Example Feature Extractor bundle for the pipeline-entry theorems. -/
def ex_analysis : AnalysisData :=
  ⟨ex_beats, [], ex_sections, ex_notes, ex_structure, 120, [], []⟩

/-- Sustained note of the specification's hold-placement example:
`{start=2.0, end=2.9, pitch=58}`. -/
def c6_notes : List SustainedNote := [⟨2.0, 2.9, 58, 0.9⟩]

/-- Candidate list for the hold-placement example: the nearest anchor to the
note start is the candidate at `t=2.02`; the four remote candidates keep the
hold cap `int(5 * 0.2) = 1` above zero. -/
def c6_cands : List StepCandidate :=
  [⟨2.02, "melody", 5, []⟩, ⟨5.0, "kick", 10, []⟩, ⟨6.0, "kick", 10, []⟩,
   ⟨7.0, "kick", 10, []⟩, ⟨8.0, "kick", 10, []⟩]

/-- A hold occupying all four lanes (degenerate input for the held-lane
avoidance witness). -/
def allheld_hold : List Step :=
  [⟨1, [.left, .down, .up, .right], .hold, some 1⟩]

/-- A single candidate at `t=1.2` used by the held-lane avoidance witness. -/
def amend_cands : List StepCandidate := [⟨1.2, "kick", 10, []⟩]

/-- The steps of the intermediate-preset chart generated from the example
inputs (computed value, pinned by `ex_inter_steps_eq`). -/
def ex_inter_steps : List Step :=
  [⟨1, [Direction.left], StepType.hold, some 1⟩,
   ⟨1.2, [Direction.left], StepType.tap, none⟩,
   ⟨1.4, [Direction.up], StepType.tap, none⟩,
   ⟨1.6, [Direction.down], StepType.tap, none⟩]

/-- The steps of the beginner-preset chart generated from the example inputs
(computed value, pinned by `ex_beg_steps_eq`). -/
def ex_beg_steps : List Step :=
  [⟨1, [Direction.left], StepType.tap, none⟩,
   ⟨1.4, [Direction.left], StepType.tap, none⟩]

lemma ex_inter_steps_eq :
    (generate_chart intermediate_config ex_beats [] ex_sections ex_notes ex_structure
      120 [] []).steps = ex_inter_steps := by
  with_unfolding_all rfl

lemma ex_beg_steps_eq :
    (generate_chart beginner_config ex_beats [] ex_sections ex_notes ex_structure
      120 [] []).steps = ex_beg_steps := by
  with_unfolding_all rfl

lemma amend_steps_eq :
    candidates_to_steps amend_cands "low" allheld_hold =
      [⟨1.2, [Direction.left], StepType.tap, none⟩] := by
  with_unfolding_all rfl

lemma get_min_gap_pos (cfg : DifficultyConfig) : 0 < get_min_gap cfg := by
  unfold get_min_gap
  split_ifs <;> norm_num

lemma repair_arrows_time (cfg : DifficultyConfig) (s : Step) :
    (repair_arrows cfg s).time = s.time := rfl

lemma repair_hold_time (cfg : DifficultyConfig) (s : Step) :
    (repair_hold cfg s).time = s.time := by
  unfold repair_hold
  split
  · split
    · split
      · rfl
      · split <;> rfl
    · rfl
  · rfl

lemma repair_step_time (cfg : DifficultyConfig) (s : Step) :
    (repair_step cfg s).time = s.time := by
  rw [repair_step, repair_hold_time, repair_arrows_time]

lemma validate_go_chain (cfg : DifficultyConfig) :
    ∀ (steps : List Step) (prev : Step),
      List.Chain (fun a b => a.time < b.time ∧ get_min_gap cfg ≤ b.time - a.time)
        prev (validate_go cfg (some prev) steps)
  | [], _ => List.Chain.nil
  | s :: rest, prev => by
    rw [validate_go]
    split
    · exact validate_go_chain cfg rest prev
    · split
      · exact validate_go_chain cfg rest prev
      · refine List.Chain.cons ?_ (validate_go_chain cfg rest _)
        have hgap : get_min_gap cfg ≤ s.time - prev.time := le_of_not_lt (by assumption)
        have hpos := get_min_gap_pos cfg
        rw [repair_step_time]
        exact ⟨by linarith, hgap⟩

/-- The validator's output is pointwise the repaired image of a subsequence
of its input. -/
lemma validate_go_sub (cfg : DifficultyConfig) :
    ∀ (steps : List Step) (prev : Option Step),
      ∃ sub : List Step, sub.Sublist steps ∧
        validate_go cfg prev steps = sub.map (repair_step cfg)
  | [], prev => ⟨[], List.nil_sublist [], by cases prev <;> rfl⟩
  | s :: rest, none => by
    obtain ⟨sub, hsub, heq⟩ := validate_go_sub cfg rest (some (repair_step cfg s))
    exact ⟨s :: sub, hsub.cons₂ s, by rw [validate_go, heq]; rfl⟩
  | s :: rest, some prev => by
    rw [validate_go]
    split
    · obtain ⟨sub, hsub, heq⟩ := validate_go_sub cfg rest (some prev)
      exact ⟨sub, hsub.cons s, heq⟩
    · split
      · obtain ⟨sub, hsub, heq⟩ := validate_go_sub cfg rest (some prev)
        exact ⟨sub, hsub.cons s, heq⟩
      · obtain ⟨sub, hsub, heq⟩ := validate_go_sub cfg rest (some (repair_step cfg s))
        exact ⟨s :: sub, hsub.cons₂ s, by rw [heq]; rfl⟩

/-- Every validated step is the repaired image of some input step. -/
lemma validate_mem {cfg : DifficultyConfig} {steps : List Step} {s : Step}
    (h : s ∈ validate_chart cfg steps) : ∃ s0 ∈ steps, s = repair_step cfg s0 := by
  obtain ⟨sub, hsub, heq⟩ := validate_go_sub cfg steps none
  rw [validate_chart, heq] at h
  obtain ⟨s0, hs0, rfl⟩ := List.mem_map.mp h
  exact ⟨s0, hsub.subset hs0, rfl⟩

lemma pyTake_subset (k : ℤ) (xs : List α) : pyTake k xs ⊆ xs := by
  unfold pyTake
  split <;> exact List.take_subset _ _

lemma foldl_min_mem (f : α → ℚ) :
    ∀ (xs : List α) (x : α),
      xs.foldl (fun best y => if f y < f best then y else best) x ∈ x :: xs
  | [], x => List.mem_singleton.mpr rfl
  | y :: ys, x => by
    have h := foldl_min_mem f ys (if f y < f x then y else x)
    simp only [List.foldl_cons]
    rcases List.mem_cons.mp h with h1 | h1
    · rw [h1]
      split <;> simp
    · exact List.mem_cons_of_mem _ (List.mem_cons_of_mem _ h1)

lemma minByKey_mem {f : α → ℚ} :
    ∀ {l : List α} {x : α}, minByKey f l = some x → x ∈ l := by
  intro l x h
  cases l with
  | nil => simp [minByKey] at h
  | cons a as =>
    simp only [minByKey, Option.some_inj] at h
    exact h ▸ foldl_min_mem f as a

lemma foldl_induct {f : β → α → β} {P : β → Prop} :
    ∀ (l : List α) (b : β), P b → (∀ b a, P b → P (f b a)) → P (l.foldl f b)
  | [], _, hb, _ => hb
  | _ :: l, b, hb, hf => foldl_induct l _ (hf b _ hb) hf

lemma gen_ok_tap {t : ℚ} {arrows : List Direction} (h : arrows ≠ []) :
    gen_ok ⟨t, arrows, .tap, none⟩ := ⟨by simp [StepOK], h⟩

lemma gen_ok_hold {t d : ℚ} {arrows : List Direction} (h : arrows ≠ []) :
    gen_ok ⟨t, arrows, .hold, some d⟩ := ⟨by simp [StepOK], h⟩

lemma hold_for_note_ok {cfg : DifficultyConfig} {avail : List ℚ} {note : SustainedNote}
    {s : Step} (h : hold_for_note cfg avail note = some s) : gen_ok s := by
  unfold hold_for_note at h
  split at h
  · split at h
    · split at h
      · obtain rfl := Option.some_inj.mp h
        exact gen_ok_hold (by simp)
      · exact absurd h (by simp)
    · exact absurd h (by simp)
  · exact absurd h (by simp)

lemma hold_for_note_sources_ok {cfg : DifficultyConfig} {m : List (ℚ × StepCandidate)}
    {note : SustainedNote} {s : Step} (h : hold_for_note_sources cfg m note = some s) :
    gen_ok s := by
  unfold hold_for_note_sources at h
  split at h
  · split at h
    · split at h
      · split at h
        · obtain rfl := Option.some_inj.mp h
          exact gen_ok_hold (by simp)
        · exact absurd h (by simp)
      · exact absurd h (by simp)
    · exact absurd h (by simp)
  · exact absurd h (by simp)

lemma place_holds_ok {cfg : DifficultyConfig} {notes : List SustainedNote}
    {avail : List ℚ} : ∀ s ∈ place_holds cfg notes avail, gen_ok s := by
  intro s hs
  obtain ⟨note, _, heq⟩ := List.mem_filterMap.mp (pyTake_subset _ _ hs)
  exact hold_for_note_ok heq

lemma place_holds_with_sources_ok {cfg : DifficultyConfig} {notes : List SustainedNote}
    {cands : List StepCandidate} : ∀ s ∈ place_holds_with_sources cfg notes cands, gen_ok s := by
  intro s hs
  obtain ⟨note, _, heq⟩ := List.mem_filterMap.mp (pyTake_subset _ _ hs)
  exact hold_for_note_sources_ok heq

lemma candidates_to_steps_go_ok (hold_steps : List Step) :
    ∀ (cands : List StepCandidate) (prev : Option Direction) (counts : Direction → ℕ)
      (s : Step), s ∈ candidates_to_steps_go hold_steps prev counts cands → gen_ok s
  | [], _, _, s, h => absurd h (List.not_mem_nil s)
  | c :: cs, prev, counts, s, h => by
    rw [candidates_to_steps_go] at h
    rcases List.mem_cons.mp h with rfl | h1
    · exact gen_ok_tap (by simp)
    · exact candidates_to_steps_go_ok hold_steps cs _ _ s h1

lemma candidates_to_steps_ok {cands : List StepCandidate} {intensity : String}
    {hold_steps : List Step} : ∀ s ∈ candidates_to_steps cands intensity hold_steps, gen_ok s :=
  fun s hs => candidates_to_steps_go_ok hold_steps _ _ _ s hs

lemma append_ok {acc new : List Step} (hacc : ∀ s ∈ acc, gen_ok s)
    (hnew : ∀ s ∈ new, gen_ok s) : ∀ s ∈ acc ++ new, gen_ok s := by
  intro s hs
  rcases List.mem_append.mp hs with h | h
  · exact hacc s h
  · exact hnew s h

lemma singleton_ok {s0 : Step} (h : gen_ok s0) : ∀ s ∈ [s0], gen_ok s := by
  intro s hs
  rcases List.mem_singleton.mp hs with rfl
  exact h

lemma stream_go_ok (t0 interval : ℚ) :
    ∀ (n j : ℕ) (bts : List ℚ) (acc : List Step),
      (∀ s ∈ acc, gen_ok s) → ∀ s ∈ stream_go t0 interval j n bts acc, gen_ok s
  | 0, _, _, _, hacc => hacc
  | _ + 1, _, [], _, hacc => hacc
  | n + 1, j, b :: bs, acc, hacc => by
    rw [stream_go]
    exact stream_go_ok t0 interval n (j + 1) bs _
      (append_ok hacc (singleton_ok (gen_ok_tap (by simp))))

lemma gp_nonstream_ok {cfg : DifficultyConfig} {acc : List Step} {b0 : ℚ}
    {rest : List ℚ} {choice : String} (hacc : ∀ s ∈ acc, gen_ok s) :
    ∀ s ∈ (gp_nonstream cfg acc b0 rest choice).1, gen_ok s := by
  unfold gp_nonstream
  split
  · refine append_ok hacc (singleton_ok ?_)
    split
    · exact gen_ok_tap (by simp)
    · split
      · exact gen_ok_tap (by simp)
      · exact gen_ok_tap (by simp)
  · split
    · split
      · intro s hs
        rcases List.mem_append.mp hs with h | h
        · exact hacc s h
        · simp only [List.mem_cons, List.not_mem_nil, or_false] at h
          rcases h with rfl | rfl | rfl | rfl <;> exact gen_ok_tap (by simp)
      · exact append_ok hacc (singleton_ok (gen_ok_tap (by simp)))
    · exact append_ok hacc (singleton_ok (gen_ok_tap (by simp)))

lemma generate_patterns_go_ok (cfg : DifficultyConfig) (intensity : String) :
    ∀ (fuel : ℕ) (bts : List ℚ) (acc : List Step),
      (∀ s ∈ acc, gen_ok s) → ∀ s ∈ generate_patterns_go cfg intensity fuel bts acc, gen_ok s
  | 0, _, _, hacc => hacc
  | _ + 1, [], _, hacc => hacc
  | fuel + 1, b0 :: rest, acc, hacc => by
    rcases rest with _ | ⟨b1, _ | ⟨b2, _ | ⟨b3, _ | ⟨b4, tail⟩⟩⟩⟩ <;>
      simp only [generate_patterns_go]
    · split
      · exact generate_patterns_go_ok cfg intensity fuel _ _
          (append_ok hacc (singleton_ok (gen_ok_tap (by simp))))
      · exact generate_patterns_go_ok cfg intensity fuel _ _ (gp_nonstream_ok hacc)
    · split
      · exact generate_patterns_go_ok cfg intensity fuel _ _
          (append_ok hacc (singleton_ok (gen_ok_tap (by simp))))
      · exact generate_patterns_go_ok cfg intensity fuel _ _ (gp_nonstream_ok hacc)
    · split
      · exact generate_patterns_go_ok cfg intensity fuel _ _
          (append_ok hacc (singleton_ok (gen_ok_tap (by simp))))
      · exact generate_patterns_go_ok cfg intensity fuel _ _ (gp_nonstream_ok hacc)
    · split
      · exact generate_patterns_go_ok cfg intensity fuel _ _
          (append_ok hacc (singleton_ok (gen_ok_tap (by simp))))
      · exact generate_patterns_go_ok cfg intensity fuel _ _ (gp_nonstream_ok hacc)
    · split
      · split
        · exact generate_patterns_go_ok cfg intensity fuel _ _
            (stream_go_ok _ _ _ _ _ _ hacc)
        · exact generate_patterns_go_ok cfg intensity fuel _ _
            (append_ok hacc (singleton_ok (gen_ok_tap (by simp))))
      · exact generate_patterns_go_ok cfg intensity fuel _ _ (gp_nonstream_ok hacc)

lemma generate_patterns_ok {cfg : DifficultyConfig} {beat_times : List ℚ}
    {intensity : String} : ∀ s ∈ generate_patterns cfg beat_times intensity, gen_ok s :=
  generate_patterns_go_ok cfg intensity _ _ [] (fun s hs => absurd hs (List.not_mem_nil s))

lemma jump_pattern_ok (t : ℚ) (jt : String) : gen_ok (jump_pattern t jt) := by
  unfold jump_pattern
  split_ifs <;> exact gen_ok_tap (by simp)

lemma gfb_phase1_ok {cfg : DifficultyConfig} {notes : List SustainedNote}
    {avail : List ℚ} : ∀ s ∈ (gfb_phase1 cfg notes avail).1, gen_ok s := by
  unfold gfb_phase1
  split
  · exact fun s hs => place_holds_ok s hs
  · exact fun s hs => absurd hs (List.not_mem_nil s)

lemma gfb_phase2_ok {cfg : DifficultyConfig} {sections : List EnergySection}
    {p : List Step × List ℚ} (h : ∀ s ∈ p.1, gen_ok s) :
    ∀ s ∈ (gfb_phase2 cfg sections p).1, gen_ok s := by
  unfold gfb_phase2
  refine foldl_induct (P := fun (sa : List Step × List ℚ) => ∀ s ∈ sa.1, gen_ok s) _ _ h ?_
  intro sa peak hsa
  split
  · split
    · split
      · exact append_ok hsa (singleton_ok (jump_pattern_ok _ _))
      · exact hsa
    · exact hsa
  · exact hsa

lemma gfb_phase3_ok {cfg : DifficultyConfig} {beats : List Beat}
    {sections : List EnergySection} {p : List Step × List ℚ}
    (h : ∀ s ∈ p.1, gen_ok s) : ∀ s ∈ gfb_phase3 cfg beats sections p, gen_ok s := by
  unfold gfb_phase3
  refine foldl_induct (P := fun st => ∀ s ∈ st, gen_ok s) _ _ h ?_
  intro steps sec hsteps
  exact append_ok hsteps (fun s hs => generate_patterns_ok s hs)

lemma generate_from_beats_ok {cfg : DifficultyConfig} {beats : List Beat}
    {subs : List ℚ} {sections : List EnergySection} {notes : List SustainedNote}
    {onsets : List ℚ} :
    ∀ s ∈ generate_from_beats cfg beats subs sections notes onsets, gen_ok s :=
  gfb_phase3_ok (gfb_phase2_ok gfb_phase1_ok)

lemma gfs_holds_ok {cfg : DifficultyConfig} {cands : List StepCandidate}
    {notes : List SustainedNote} : ∀ s ∈ gfs_holds cfg cands notes, gen_ok s := by
  unfold gfs_holds
  split
  · exact fun s hs => place_holds_with_sources_ok s hs
  · exact fun s hs => absurd hs (List.not_mem_nil s)

lemma gfs_phase2_ok {cfg : DifficultyConfig} {cands : List StepCandidate}
    {hold_steps : List Step} {sections : List EnergySection}
    (h : ∀ s ∈ hold_steps, gen_ok s) :
    ∀ s ∈ (gfs_phase2 cfg cands hold_steps sections).1, gen_ok s := by
  unfold gfs_phase2
  refine foldl_induct (P := fun (su : List Step × List ℚ) => ∀ s ∈ su.1, gen_ok s) _ _ h ?_
  intro su sec hsu
  dsimp only
  split
  · exact hsu
  · exact append_ok hsu (fun s hs => candidates_to_steps_ok s hs)

lemma gfs_phase3_ok {cfg : DifficultyConfig} {sections : List EnergySection}
    {k : ℕ} {steps0 : List Step} (h : ∀ s ∈ steps0, gen_ok s) :
    ∀ s ∈ gfs_phase3 cfg sections k steps0, gen_ok s := by
  unfold gfs_phase3
  split
  · refine foldl_induct (P := fun st => ∀ s ∈ st, gen_ok s) _ _ h ?_
    intro steps peak hsteps
    split
    · split
      · split
        · split
          · exact hsteps
          · intro s hs
            rcases List.mem_or_eq_of_mem_set hs with hmem | rfl
            · exact hsteps s hmem
            · rename_i hget _ _
              obtain ⟨hok, hne⟩ := hsteps _ (List.getElem?_mem hget)
              exact ⟨hok, by simp⟩
        · exact hsteps
      · exact hsteps
    · exact hsteps
  · exact h

lemma generate_from_sources_ok {cfg : DifficultyConfig} {cands : List StepCandidate}
    {sections : List EnergySection} {notes : List SustainedNote} :
    ∀ s ∈ generate_from_sources cfg cands sections notes, gen_ok s :=
  gfs_phase3_ok (gfs_phase2_ok gfs_holds_ok)

lemma repair_hold_arrows (cfg : DifficultyConfig) (s : Step) :
    (repair_hold cfg s).arrows = s.arrows := by
  unfold repair_hold
  split
  · split
    · split
      · rfl
      · split <;> rfl
    · rfl
  · rfl

lemma repair_step_arrows_len {cfg : DifficultyConfig} {s : Step} (h : s.arrows ≠ []) :
    1 ≤ (repair_step cfg s).arrows.length ∧ (repair_step cfg s).arrows.length ≤ 4 ∧
      (cfg.name = "beginner" → (repair_step cfg s).arrows.length = 1) := by
  unfold repair_step
  rw [repair_hold_arrows]
  unfold repair_arrows
  dsimp only
  have h0 : 0 < s.arrows.length := List.length_pos.mpr h
  by_cases h4 : 4 < s.arrows.length
  · rw [if_pos h4]
    have hlen1 : (s.arrows.take 4).length = 4 := by
      rw [List.length_take]; omega
    by_cases hb : cfg.name = "beginner" ∧ 1 < (s.arrows.take 4).length
    · rw [if_pos hb]
      have hlen2 : ((s.arrows.take 4).take 1).length = 1 := by
        rw [List.length_take, hlen1]; omega
      exact ⟨by omega, by omega, fun _ => hlen2⟩
    · rw [if_neg hb]
      exact ⟨by omega, by omega, fun hbeg => absurd ⟨hbeg, by omega⟩ hb⟩
  · rw [if_neg h4]
    by_cases hb : cfg.name = "beginner" ∧ 1 < s.arrows.length
    · rw [if_pos hb]
      have hlen2 : (s.arrows.take 1).length = 1 := by
        rw [List.length_take]; omega
      exact ⟨by omega, by omega, fun _ => hlen2⟩
    · rw [if_neg hb]
      refine ⟨h0, by omega, fun hbeg => ?_⟩
      have : ¬ 1 < s.arrows.length := fun hlt => hb ⟨hbeg, hlt⟩
      omega

lemma repair_step_stepok {cfg : DifficultyConfig} {s : Step} (h : StepOK s) :
    StepOK (repair_step cfg s) := by
  have h2 : StepOK (repair_arrows cfg s) := h
  unfold repair_step repair_hold
  split
  · split
    · split
      · simp [StepOK]
      · split
        · simp only [StepOK]
          simp
          assumption
        · exact h2
    · exact h2
  · exact h2

lemma repair_step_hold_bounds {cfg : DifficultyConfig} {s : Step} (hok : StepOK s)
    (hmm : cfg.min_hold_duration ≤ cfg.max_hold_duration)
    (hh : (repair_step cfg s).step_type = StepType.hold) :
    ∃ d, (repair_step cfg s).hold_duration = some d ∧
      cfg.min_hold_duration ≤ d ∧ d ≤ cfg.max_hold_duration := by
  have hok2 : (repair_arrows cfg s).step_type = StepType.hold ↔
      (repair_arrows cfg s).hold_duration.isSome := hok
  have hh2 : (repair_hold cfg (repair_arrows cfg s)).step_type = StepType.hold := hh
  show ∃ d, (repair_hold cfg (repair_arrows cfg s)).hold_duration = some d ∧ _ ∧ _
  rcases hst : (repair_arrows cfg s).step_type with _ | _
  · -- a tap passes through `repair_hold` unchanged, so `hh` is contradictory
    rw [repair_hold, if_neg (by rw [hst]; exact fun hc => StepType.noConfusion hc)] at hh2
    exact absurd (hst ▸ hh2) (fun hc => StepType.noConfusion hc)
  · rcases hd : (repair_arrows cfg s).hold_duration with _ | d
    · -- a hold without a duration is excluded by the pairing invariant
      exact absurd (hok2.mp hst) (by rw [hd]; simp)
    · by_cases h1 : d < cfg.min_hold_duration
      · -- demotion to a tap contradicts `hh`
        rw [repair_hold, if_pos hst, hd] at hh2
        simp only [h1, if_true] at hh2
        exact absurd hh2 (fun hc => StepType.noConfusion hc)
      · by_cases h2 : cfg.max_hold_duration < d
        · refine ⟨cfg.max_hold_duration, ?_, hmm, le_refl _⟩
          rw [repair_hold, if_pos hst, hd]
          simp [h1, h2]
        · refine ⟨d, ?_, le_of_not_lt h1, le_of_not_lt h2⟩
          rw [repair_hold, if_pos hst, hd]
          simp [h1, h2, hd]

lemma chart_steps_eq (cfg : DifficultyConfig) (beats : List Beat) (subs : List ℚ)
    (sections : List EnergySection) (notes : List SustainedNote) (st : SongStructure)
    (tempo : ℚ) (onsets : List ℚ) (cands : List StepCandidate) :
    (generate_chart cfg beats subs sections notes st tempo onsets cands).steps =
      validate_chart cfg (adjust_for_structure
        ((if cands ≠ [] then generate_from_sources cfg cands sections notes
          else generate_from_beats cfg beats subs sections notes onsets).insertionSort
          (fun a b => a.time ≤ b.time)) st) := rfl

lemma adjust_for_structure_subset (steps : List Step) (st : SongStructure) :
    adjust_for_structure steps st ⊆ steps := by
  intro s hs
  unfold adjust_for_structure at hs
  exact (List.mem_filter.mp (List.mem_filter.mp hs).1).1

lemma chart_mem_repair {cfg : DifficultyConfig} {beats : List Beat} {subs : List ℚ}
    {sections : List EnergySection} {notes : List SustainedNote} {st : SongStructure}
    {tempo : ℚ} {onsets : List ℚ} {cands : List StepCandidate} {s : Step}
    (hs : s ∈ (generate_chart cfg beats subs sections notes st tempo onsets cands).steps) :
    ∃ s0, gen_ok s0 ∧ s = repair_step cfg s0 := by
  rw [chart_steps_eq] at hs
  obtain ⟨s0, hmem, rfl⟩ := validate_mem hs
  have h1 := adjust_for_structure_subset _ _ hmem
  have h2 := (List.perm_insertionSort _ _).mem_iff.mp h1
  refine ⟨s0, ?_, rfl⟩
  split at h2
  · exact generate_from_sources_ok s0 h2
  · exact generate_from_beats_ok s0 h2

lemma filter_not_held {held : Direction → Bool} (l : List Direction) {x : Direction}
    (hx : x ∈ l.filter (fun d => !held d)) : held x = false := by
  simpa using (List.mem_filter.mp hx).2

lemma choose_spread_arrow_avoids (prev : Option Direction) (counts : Direction → ℕ)
    (t : ℚ) (held : Direction → Bool) (hfree : ∃ d, held d = false) :
    held (choose_spread_arrow prev counts t held) = false := by
  obtain ⟨d0, hd0⟩ := hfree
  have hav : ([Direction.left, .down, .up, .right].filter (fun d => !held d)) ≠ [] := by
    have hmem : d0 ∈ [Direction.left, .down, .up, .right].filter (fun d => !held d) :=
      List.mem_filter.mpr ⟨by cases d0 <;> simp, by simp [hd0]⟩
    intro hemp
    rw [hemp] at hmem
    exact absurd hmem (List.not_mem_nil d0)
  unfold choose_spread_arrow
  dsimp only
  rw [if_neg hav]
  cases prev with
  | none =>
    dsimp only
    rcases hfil : [Direction.left, .down, .up, .right].filter (fun d => !held d) with
      _ | ⟨a, as⟩
    · exact absurd hfil hav
    · show held ((minByKey (fun d => (counts d : ℚ)) (a :: as)).getD Direction.left) = false
      rw [minByKey, Option.getD_some]
      refine filter_not_held [Direction.left, .down, .up, .right] ?_
      rw [hfil]
      exact foldl_min_mem _ as a
  | some p =>
    dsimp only
    set F1 := (if p = Direction.left ∨ p = Direction.down then
        [Direction.up, Direction.right] else [Direction.left, Direction.down]).filter
        (fun d => !held d) with hF1
    set G1 := (if p = Direction.left ∨ p = Direction.down then
        [Direction.left, Direction.down] else [Direction.up, Direction.right]).filter
        (fun d => !held d) with hG1
    set F2 := if F1 = [] then G1 else F1 with hF2
    set F3 := if F2 = [] then
        [Direction.left, .down, .up, .right].filter (fun d => !held d) else F2 with hF3
    have hsub : ∀ x ∈ F3, held x = false := by
      intro x hx
      rw [hF3] at hx
      split at hx
      · exact filter_not_held _ hx
      · rw [hF2] at hx
        split at hx
        · rw [hG1] at hx
          exact filter_not_held _ hx
        · rw [hF1] at hx
          exact filter_not_held _ hx
    have hne : F3 ≠ [] := by
      rw [hF3]
      split
      · exact hav
      · rename_i hF2ne
        exact hF2ne
    rcases hfo : F3 with _ | ⟨o0, _ | ⟨o1, r⟩⟩
    · exact absurd hfo hne
    · exact hsub o0 (by rw [hfo]; simp)
    · show held (if counts o0 < counts o1 then (if timeSeed t < 70 then o0 else o1)
        else if counts o1 < counts o0 then (if timeSeed t < 70 then o1 else o0)
        else (if timeSeed t < 50 then o0 else o1)) = false
      split_ifs
      · exact hsub o0 (by rw [hfo]; simp)
      · exact hsub o1 (by rw [hfo]; simp)
      · exact hsub o1 (by rw [hfo]; simp)
      · exact hsub o0 (by rw [hfo]; simp)
      · exact hsub o0 (by rw [hfo]; simp)
      · exact hsub o1 (by rw [hfo]; simp)

lemma candidates_to_steps_go_shape (hold_steps : List Step) :
    ∀ (cands : List StepCandidate) (prev : Option Direction) (counts : Direction → ℕ)
      (s : Step), s ∈ candidates_to_steps_go hold_steps prev counts cands →
      ∃ (c : StepCandidate) (prev2 : Option Direction) (counts2 : Direction → ℕ),
        s = ⟨c.time, [choose_spread_arrow prev2 counts2 c.time (is_held hold_steps c.time)],
             .tap, none⟩
  | [], _, _, s, h => absurd h (List.not_mem_nil s)
  | c :: cs, prev, counts, s, h => by
    rw [candidates_to_steps_go] at h
    rcases List.mem_cons.mp h with rfl | h1
    · exact ⟨c, prev, counts, rfl⟩
    · exact candidates_to_steps_go_shape hold_steps cs _ _ s h1

lemma dedup_round4_go_mem :
    ∀ (ts : List ℚ) (acc : List ℚ) (x : ℚ),
      x ∈ ts.foldl (fun acc t => if roundTo t 4 ∈ acc then acc else acc ++ [roundTo t 4]) acc
        ↔ x ∈ acc ∨ ∃ t ∈ ts, x = roundTo t 4
  | [], acc, x => by simp
  | t :: ts, acc, x => by
    rw [List.foldl_cons, dedup_round4_go_mem ts]
    by_cases h : roundTo t 4 ∈ acc
    · rw [if_pos h]
      constructor
      · rintro (hx | ⟨t2, ht2, rfl⟩)
        · exact Or.inl hx
        · exact Or.inr ⟨t2, List.mem_cons_of_mem _ ht2, rfl⟩
      · rintro (hx | ⟨t2, ht2, rfl⟩)
        · exact Or.inl hx
        · rcases List.mem_cons.mp ht2 with rfl | h2
          · exact Or.inl h
          · exact Or.inr ⟨t2, h2, rfl⟩
    · rw [if_neg h]
      constructor
      · rintro (hx | ⟨t2, ht2, rfl⟩)
        · rcases List.mem_append.mp hx with h1 | h1
          · exact Or.inl h1
          · exact Or.inr ⟨t, List.mem_cons_self t ts, List.mem_singleton.mp h1⟩
        · exact Or.inr ⟨t2, List.mem_cons_of_mem _ ht2, rfl⟩
      · rintro (hx | ⟨t2, ht2, rfl⟩)
        · exact Or.inl (List.mem_append.mpr (Or.inl hx))
        · rcases List.mem_cons.mp ht2 with rfl | h2
          · exact Or.inl (List.mem_append.mpr (Or.inr (by simp)))
          · exact Or.inr ⟨t2, h2, rfl⟩

lemma dedup_round4_mem {ts : List ℚ} {x : ℚ} :
    x ∈ dedup_round4 ts ↔ ∃ t ∈ ts, x = roundTo t 4 := by
  rw [dedup_round4, dedup_round4_go_mem]
  simp

lemma dedup_round4_go_nodup :
    ∀ (ts acc : List ℚ), acc.Nodup →
      (ts.foldl (fun acc t =>
        if roundTo t 4 ∈ acc then acc else acc ++ [roundTo t 4]) acc).Nodup
  | [], _, h => h
  | t :: ts, acc, h => by
    rw [List.foldl_cons]
    by_cases hmem : roundTo t 4 ∈ acc
    · rw [if_pos hmem]
      exact dedup_round4_go_nodup ts acc h
    · rw [if_neg hmem]
      refine dedup_round4_go_nodup ts _ ?_
      exact h.append (List.nodup_singleton _)
        (fun a ha hb => hmem (List.mem_singleton.mp hb ▸ ha))

lemma sorted_lt_of_le_nodup : ∀ {l : List ℚ},
    l.Sorted (· ≤ ·) → l.Nodup → l.Sorted (· < ·)
  | [], _, _ => List.sorted_nil
  | a :: l, hs, hn => by
    rw [List.sorted_cons] at hs ⊢
    rw [List.nodup_cons] at hn
    refine ⟨fun b hb => lt_of_le_of_ne (hs.1 b hb) fun heq => hn.1 (heq ▸ hb), ?_⟩
    exact sorted_lt_of_le_nodup hs.2 hn.2

/-! ## Claim theorems -/

/-- C1: for every generated chart (any input event streams, any difficulty
configuration, in particular the three presets), the final step list is
sorted strictly ascending by time and consecutive steps are separated by at
least the active difficulty's minimum gap, which is 0.35 s for beginner,
0.15 s for intermediate and 0.08 s for expert. -/
theorem chart_time_ordering_min_gap :
    (∀ (cfg : DifficultyConfig) (beats : List Beat) (subs : List ℚ)
        (sections : List EnergySection) (notes : List SustainedNote)
        (st : SongStructure) (tempo : ℚ) (onsets : List ℚ)
        (cands : List StepCandidate),
      List.Chain' (fun a b => a.time < b.time ∧ get_min_gap cfg ≤ b.time - a.time)
        (generate_chart cfg beats subs sections notes st tempo onsets cands).steps)
    ∧ get_min_gap beginner_config = 0.35
    ∧ get_min_gap intermediate_config = 0.15
    ∧ get_min_gap expert_config = 0.08 := by
  refine ⟨?_, rfl, rfl, rfl⟩
  intro cfg beats subs sections notes st tempo onsets cands
  rw [chart_steps_eq]
  generalize adjust_for_structure _ _ = l
  cases l with
  | nil => trivial
  | cons s rest => exact validate_go_chain cfg rest (repair_step cfg s)

/-- C2: chart generation is deterministic — two independent runs of
`generate_chart` on the same input event streams and difficulty produce
identical charts (same step times, arrows, step types, hold durations and
order). -/
theorem chart_determinism :
    ∀ (cfg : DifficultyConfig) (beats : List Beat) (subs : List ℚ)
      (sections : List EnergySection) (notes : List SustainedNote)
      (st : SongStructure) (tempo : ℚ) (onsets : List ℚ) (cands : List StepCandidate)
      (run1 run2 : Chart),
      run1 = generate_chart cfg beats subs sections notes st tempo onsets cands →
      run2 = generate_chart cfg beats subs sections notes st tempo onsets cands →
      run1 = run2 := by
  intro cfg beats subs sections notes st tempo onsets cands run1 run2 h1 h2
  rw [h1, h2]

/-- Witness for C2 at a concrete input. -/
theorem chart_determinism_witness :
    generate_chart intermediate_config ex_beats [] ex_sections ex_notes ex_structure
        120 [] [] =
      generate_chart intermediate_config ex_beats [] ex_sections ex_notes ex_structure
        120 [] [] :=
  chart_determinism intermediate_config ex_beats [] ex_sections ex_notes ex_structure
    120 [] [] _ _ rfl rfl

/-- C3 (counterexample): held-lane exclusivity fails on a whole generated
chart.  With five downbeats at 1.0–1.8 s, one low-energy section, and a
sustained note of duration 1 s anchored at 1.0 s (pitch 50 → left lane), the
intermediate beat-path chart contains a hold on `left` over `[1.0, 2.05]` and
a tap at 1.2 s that also selects `left`: the beat-based pattern synthesis
chooses arrows without consulting held lanes. -/
theorem held_lane_exclusivity_counterexample :
    (generate_chart intermediate_config ex_beats [] ex_sections ex_notes ex_structure
        120 [] []).steps =
      [⟨1, [Direction.left], StepType.hold, some 1⟩,
       ⟨1.2, [Direction.left], StepType.tap, none⟩,
       ⟨1.4, [Direction.up], StepType.tap, none⟩,
       ⟨1.6, [Direction.down], StepType.tap, none⟩]
    ∧ held_lane_exclusive (generate_chart intermediate_config ex_beats [] ex_sections
        ex_notes ex_structure 120 [] []).steps = false := by
  refine ⟨ex_inter_steps_eq, ?_⟩
  rw [ex_inter_steps_eq]
  with_unfolding_all rfl

/-- C3 (amended): in the source-candidate path, every tap emitted by
`_candidates_to_steps` avoids the lanes occupied by an active hold at its
time: a selected lane can be held only in the degenerate situation where all
four lanes are simultaneously held.  The beat-based fallback path gives no
such guarantee (see `held_lane_exclusivity_counterexample`). -/
theorem candidate_taps_avoid_held_lanes :
    ∀ (cands : List StepCandidate) (intensity : String) (hold_steps : List Step),
      ∀ s ∈ candidates_to_steps cands intensity hold_steps, ∀ d ∈ s.arrows,
        is_held hold_steps s.time d = true → ∀ d2, is_held hold_steps s.time d2 = true := by
  intro cands intensity hold_steps s hs d hd hheld d2
  obtain ⟨c, prev2, counts2, rfl⟩ := candidates_to_steps_go_shape hold_steps _ _ _ s hs
  rcases List.mem_singleton.mp hd with rfl
  by_contra hne
  have hfalse : is_held hold_steps c.time d2 = false := by
    revert hne
    cases is_held hold_steps c.time d2 <;> simp
  have havoid := choose_spread_arrow_avoids prev2 counts2 c.time
    (is_held hold_steps c.time) ⟨d2, hfalse⟩
  have hheld2 : is_held hold_steps c.time
      (choose_spread_arrow prev2 counts2 c.time (is_held hold_steps c.time)) = true := hheld
  rw [havoid] at hheld2
  exact Bool.noConfusion hheld2

/-- Witness for the amended C3: with a hold occupying all four lanes, the tap
at 1.2 s necessarily lands on a held lane, and indeed every lane is held. -/
theorem candidate_taps_avoid_held_lanes_witness :
    is_held allheld_hold 1.2 Direction.up = true :=
  candidate_taps_avoid_held_lanes amend_cands "low" allheld_hold
    ⟨1.2, [Direction.left], StepType.tap, none⟩ (by rw [amend_steps_eq]; simp)
    Direction.left (by simp) (by with_unfolding_all rfl) Direction.up

/-- C4: for every hold step in a final chart under any of the three presets,
the hold duration lies within the preset's `[minHoldDuration,
maxHoldDuration]` bounds. -/
theorem hold_duration_bounds :
    ∀ cfg, (cfg = beginner_config ∨ cfg = intermediate_config ∨ cfg = expert_config) →
    ∀ (beats : List Beat) (subs : List ℚ) (sections : List EnergySection)
      (notes : List SustainedNote) (st : SongStructure) (tempo : ℚ)
      (onsets : List ℚ) (cands : List StepCandidate),
    ∀ s ∈ (generate_chart cfg beats subs sections notes st tempo onsets cands).steps,
      s.step_type = StepType.hold →
      ∃ d, s.hold_duration = some d ∧
        cfg.min_hold_duration ≤ d ∧ d ≤ cfg.max_hold_duration := by
  intro cfg hcfg beats subs sections notes st tempo onsets cands s hs hh
  have hmm : cfg.min_hold_duration ≤ cfg.max_hold_duration := by
    rcases hcfg with rfl | rfl | rfl <;> with_unfolding_all decide
  obtain ⟨s0, ⟨hok, _⟩, rfl⟩ := chart_mem_repair hs
  exact repair_step_hold_bounds hok hmm hh

/-- Witness for C4: the hold at 1.0 s of the intermediate example chart. -/
theorem hold_duration_bounds_witness :
    ∃ d, (⟨1, [Direction.left], StepType.hold, some 1⟩ : Step).hold_duration = some d ∧
      intermediate_config.min_hold_duration ≤ d ∧
      d ≤ intermediate_config.max_hold_duration :=
  hold_duration_bounds intermediate_config (Or.inr (Or.inl rfl)) ex_beats [] ex_sections
    ex_notes ex_structure 120 [] [] ⟨1, [Direction.left], StepType.hold, some 1⟩
    (by rw [ex_inter_steps_eq]; simp [ex_inter_steps]) rfl

/-- C5: every step of a final chart carries between 1 and 4 arrows, and in a
beginner chart every step carries exactly one arrow. -/
theorem arrow_count_bounds :
    (∀ (cfg : DifficultyConfig) (beats : List Beat) (subs : List ℚ)
        (sections : List EnergySection) (notes : List SustainedNote)
        (st : SongStructure) (tempo : ℚ) (onsets : List ℚ) (cands : List StepCandidate),
      ∀ s ∈ (generate_chart cfg beats subs sections notes st tempo onsets cands).steps,
        1 ≤ s.arrows.length ∧ s.arrows.length ≤ 4)
    ∧ (∀ (beats : List Beat) (subs : List ℚ) (sections : List EnergySection)
        (notes : List SustainedNote) (st : SongStructure) (tempo : ℚ)
        (onsets : List ℚ) (cands : List StepCandidate),
      ∀ s ∈ (generate_chart beginner_config beats subs sections notes st tempo
          onsets cands).steps, s.arrows.length = 1) := by
  constructor
  · intro cfg beats subs sections notes st tempo onsets cands s hs
    obtain ⟨s0, ⟨_, hne⟩, rfl⟩ := chart_mem_repair hs
    obtain ⟨h1, h2, _⟩ := repair_step_arrows_len hne
    exact ⟨h1, h2⟩
  · intro beats subs sections notes st tempo onsets cands s hs
    obtain ⟨s0, ⟨_, hne⟩, rfl⟩ := chart_mem_repair hs
    obtain ⟨_, _, h3⟩ := repair_step_arrows_len hne
    exact h3 rfl

/-- Witness for C5: a tap of the intermediate example chart, and a step of
the beginner example chart. -/
theorem arrow_count_bounds_witness :
    (1 ≤ (⟨1.2, [Direction.left], StepType.tap, none⟩ : Step).arrows.length ∧
      (⟨1.2, [Direction.left], StepType.tap, none⟩ : Step).arrows.length ≤ 4) ∧
    (⟨1, [Direction.left], StepType.tap, none⟩ : Step).arrows.length = 1 :=
  ⟨arrow_count_bounds.1 intermediate_config ex_beats [] ex_sections ex_notes ex_structure
      120 [] [] ⟨1.2, [Direction.left], StepType.tap, none⟩
      (by rw [ex_inter_steps_eq]; simp [ex_inter_steps]),
   arrow_count_bounds.2 ex_beats [] ex_sections ex_notes ex_structure 120 [] []
      ⟨1, [Direction.left], StepType.tap, none⟩
      (by rw [ex_beg_steps_eq]; simp [ex_beg_steps])⟩

/-- C6 (counterexample): the spec's hold-placement example is wrong about the
duration.  For the sustained note `{start=2.0, end=2.9, pitch=58}` under the
intermediate preset with the nearest candidate at `t=2.02`, the code produces
`holdDuration = 0.9` (the note length, `end - start`, clamped only by the
preset maximum), not the claimed `0.88`. -/
theorem hold_placement_example_counterexample :
    place_holds_with_sources intermediate_config c6_notes c6_cands ≠
      [⟨2.02, [Direction.down], StepType.hold, some 0.88⟩]
    ∧ place_holds_with_sources intermediate_config c6_notes c6_cands =
      [⟨2.02, [Direction.down], StepType.hold, some 0.9⟩] := by
  have h : place_holds_with_sources intermediate_config c6_notes c6_cands =
      [⟨2.02, [Direction.down], StepType.hold, some 0.9⟩] := by
    with_unfolding_all rfl
  refine ⟨?_, h⟩
  rw [h]
  intro hc
  rw [List.cons.injEq, Step.mk.injEq] at hc
  have hd : (some (0.9 : ℚ)) = some 0.88 := hc.1.2.2.2
  rw [Option.some.injEq] at hd
  norm_num at hd

/-- C6 (amended): the example note yields the hold step `{time=2.02,
arrows=[down], type=hold, holdDuration=0.9}` on both hold-placement paths;
the duration equals `end - start = 0.9`, unaffected by the anchor shift. -/
theorem hold_placement_example_amended :
    place_holds_with_sources intermediate_config c6_notes c6_cands =
      [⟨2.02, [Direction.down], StepType.hold, some 0.9⟩]
    ∧ place_holds intermediate_config c6_notes [2.02, 5, 6, 7, 8] =
      [⟨2.02, [Direction.down], StepType.hold, some 0.9⟩]
    ∧ (0.9 : ℚ) = 2.9 - 2.0 := by
  refine ⟨by with_unfolding_all rfl, by with_unfolding_all rfl, by norm_num⟩

/-- C7 (counterexample): `quantize_to_grid` does not return the exact snapped
value `round(t/g) * g`: it returns that value rounded to 4 decimal places.
At `times=[4]`, `tempo=7`, `grid_division=8` the grid spacing is `30/7`, the
exact snap of 4 is `30/7 ≈ 4.2857143`, but the function returns `4.2857`. -/
theorem quantize_to_grid_counterexample :
    quantize_to_grid [4] 7 8 = [42857 / 10000]
    ∧ grid_snap 7 8 4 = 30 / 7
    ∧ ((42857 : ℚ) / 10000) ≠ 30 / 7
    ∧ quantize_to_grid [4] 7 8 ≠ [grid_snap 7 8 4] := by
  have h1 : quantize_to_grid [4] 7 8 = [42857 / 10000] := by with_unfolding_all rfl
  have h2 : grid_snap 7 8 4 = 30 / 7 := by with_unfolding_all rfl
  have h3 : ((42857 : ℚ) / 10000) ≠ 30 / 7 := by norm_num
  refine ⟨h1, h2, h3, ?_⟩
  rw [h1, h2]
  intro hc
  rw [List.cons.injEq] at hc
  exact h3 hc.1

/-- C7 (amended): for tempo > 0, `quantize_to_grid` returns exactly the
4-decimal roundings of the snapped times `round(t/g) * g` with
`g = (60/tempo)/(d/4)` — every output element arises from an input time, every
input time contributes its rounded snap — de-duplicated and sorted strictly
ascending; for tempo ≤ 0 or empty input the input is returned unchanged. -/
theorem quantize_to_grid_amended :
    (∀ (times : List ℚ) (tempo gd : ℚ), tempo ≤ 0 →
        quantize_to_grid times tempo gd = times)
    ∧ (∀ (tempo gd : ℚ), quantize_to_grid [] tempo gd = [])
    ∧ (∀ (times : List ℚ) (tempo gd : ℚ), 0 < tempo →
        ∀ x ∈ quantize_to_grid times tempo gd,
          ∃ t ∈ times, x = roundTo (grid_snap tempo gd t) 4)
    ∧ (∀ (times : List ℚ) (tempo gd : ℚ), 0 < tempo → ∀ t ∈ times,
        roundTo (grid_snap tempo gd t) 4 ∈ quantize_to_grid times tempo gd)
    ∧ (∀ (times : List ℚ) (tempo gd : ℚ), 0 < tempo →
        List.Sorted (· < ·) (quantize_to_grid times tempo gd) ∧
          (quantize_to_grid times tempo gd).Nodup) := by
  refine ⟨?_, ?_, ?_, ?_, ?_⟩
  · intro times tempo gd h
    rw [quantize_to_grid, if_pos (Or.inr h)]
  · intro tempo gd
    rw [quantize_to_grid, if_pos (Or.inl rfl)]
  · intro times tempo gd ht x hx
    by_cases hemp : times = []
    · subst hemp
      rw [quantize_to_grid, if_pos (Or.inl rfl)] at hx
      exact absurd hx (List.not_mem_nil x)
    · rw [quantize_to_grid, if_neg (fun hor => hor.elim hemp
        (fun hle => absurd ht (not_lt.mpr hle)))] at hx
      obtain ⟨t2, ht2, rfl⟩ := dedup_round4_mem.mp
        ((List.perm_insertionSort _ _).mem_iff.mp hx)
      obtain ⟨t, ht3, rfl⟩ := List.mem_map.mp ht2
      exact ⟨t, ht3, rfl⟩
  · intro times tempo gd ht t htmem
    have hemp : times ≠ [] := by
      intro h
      subst h
      exact absurd htmem (List.not_mem_nil t)
    rw [quantize_to_grid, if_neg (fun hor => hor.elim hemp
      (fun hle => absurd ht (not_lt.mpr hle)))]
    refine (List.perm_insertionSort _ _).mem_iff.mpr ?_
    exact dedup_round4_mem.mpr
      ⟨grid_snap tempo gd t, List.mem_map.mpr ⟨t, htmem, rfl⟩, rfl⟩
  · intro times tempo gd ht
    by_cases hemp : times = []
    · subst hemp
      rw [quantize_to_grid, if_pos (Or.inl rfl)]
      exact ⟨List.sorted_nil, List.nodup_nil⟩
    · rw [quantize_to_grid, if_neg (fun hor => hor.elim hemp
        (fun hle => absurd ht (not_lt.mpr hle)))]
      have hnd : (dedup_round4 (times.map (grid_snap tempo gd))).Nodup :=
        dedup_round4_go_nodup _ [] List.nodup_nil
      have hnd2 := (List.perm_insertionSort (· ≤ ·)
        (dedup_round4 (times.map (grid_snap tempo gd)))).nodup_iff.mpr hnd
      exact ⟨sorted_lt_of_le_nodup (List.sorted_insertionSort _ _) hnd2, hnd2⟩

/-- Witness for the amended C7 at concrete inputs. -/
theorem quantize_to_grid_amended_witness :
    quantize_to_grid [3, 1] (-1) 8 = [3, 1]
    ∧ (1 : ℚ) ∈ quantize_to_grid [3, 1] 120 8
    ∧ List.Sorted (· < ·) (quantize_to_grid [3, 1] 120 8) := by
  refine ⟨quantize_to_grid_amended.1 [3, 1] (-1) 8 (by norm_num), ?_,
    (quantize_to_grid_amended.2.2.2.2 [3, 1] 120 8 (by norm_num)).1⟩
  have h := quantize_to_grid_amended.2.2.2.1 [3, 1] 120 8 (by norm_num) 1 (by simp)
  have he : roundTo (grid_snap 120 8 1) 4 = 1 := by with_unfolding_all rfl
  rw [he] at h
  exact h

/-- C8: an unknown difficulty name makes the configuration lookup fail and
the pipeline abort before any generation stage runs, producing no chart; each
of the three known names yields its preset without error. -/
theorem unknown_difficulty_fail_fast :
    (∀ d : String, d ≠ "beginner" → d ≠ "intermediate" → d ≠ "expert" →
      get_difficulty_config d = Except.error ("Unknown difficulty " ++ d)
        ∧ ∀ a : AnalysisData, generate_from_audio a d = none)
    ∧ get_difficulty_config "beginner" = Except.ok beginner_config
    ∧ get_difficulty_config "intermediate" = Except.ok intermediate_config
    ∧ get_difficulty_config "expert" = Except.ok expert_config := by
  refine ⟨?_, rfl, rfl, rfl⟩
  intro d h1 h2 h3
  have hp : DIFFICULTY_PRESETS d = none := by
    unfold DIFFICULTY_PRESETS
    rw [if_neg h1, if_neg h2, if_neg h3]
  exact ⟨by simp [get_difficulty_config, hp], fun a => by simp [generate_from_audio, hp]⟩

/-- Witness for C8 at the unknown name "extreme". -/
theorem unknown_difficulty_fail_fast_witness :
    get_difficulty_config "extreme" = Except.error ("Unknown difficulty " ++ "extreme")
    ∧ generate_from_audio ex_analysis "extreme" = none :=
  ⟨(unknown_difficulty_fail_fast.1 "extreme" (by decide) (by decide) (by decide)).1,
   (unknown_difficulty_fail_fast.1 "extreme" (by decide) (by decide) (by decide)).2
     ex_analysis⟩

/-- C9: constructing a `Step` with an inconsistent `step_type`/`hold_duration`
pairing is rejected at construction time (`mk_step` returns `none` exactly for
inconsistent pairings), and every step of every returned chart satisfies the
pairing invariant: it is a hold iff it carries a duration. -/
theorem step_hold_pairing_invariant :
    (∀ (t : ℚ) (arrows : List Direction) (st : StepType) (d : Option ℚ),
      mk_step t arrows st d = none ↔ ¬(st = StepType.hold ↔ d.isSome))
    ∧ (∀ (cfg : DifficultyConfig) (beats : List Beat) (subs : List ℚ)
        (sections : List EnergySection) (notes : List SustainedNote)
        (stc : SongStructure) (tempo : ℚ) (onsets : List ℚ)
        (cands : List StepCandidate),
      ∀ s ∈ (generate_chart cfg beats subs sections notes stc tempo onsets cands).steps,
        (s.step_type = StepType.hold ↔ s.hold_duration.isSome)) := by
  constructor
  · intro t arrows st d
    cases st <;> cases d <;> simp [mk_step]
  · intro cfg beats subs sections notes stc tempo onsets cands s hs
    obtain ⟨s0, ⟨hok, _⟩, rfl⟩ := chart_mem_repair hs
    exact repair_step_stepok hok

/-- Witness for C9: the hold of the intermediate example chart. -/
theorem step_hold_pairing_invariant_witness :
    ((⟨1, [Direction.left], StepType.hold, some 1⟩ : Step).step_type = StepType.hold ↔
      (⟨1, [Direction.left], StepType.hold, some 1⟩ : Step).hold_duration.isSome) :=
  step_hold_pairing_invariant.2 intermediate_config ex_beats [] ex_sections ex_notes
    ex_structure 120 [] [] ⟨1, [Direction.left], StepType.hold, some 1⟩
    (by rw [ex_inter_steps_eq]; simp [ex_inter_steps])

/-- C10: the validator stage never creates steps and never changes a step's
time: its output is the image, under the pure per-step repair (arrow
truncation and hold repair, both time-preserving), of a subsequence of its
input, so in particular the output is never longer than the input. -/
theorem validator_subsequence :
    ∀ (cfg : DifficultyConfig) (steps : List Step),
      ∃ sub : List Step, sub.Sublist steps ∧
        validate_chart cfg steps = sub.map (repair_step cfg) ∧
        (∀ s : Step, (repair_step cfg s).time = s.time) ∧
        (validate_chart cfg steps).length ≤ steps.length := by
  intro cfg steps
  obtain ⟨sub, hsub, heq⟩ := validate_go_sub cfg steps none
  refine ⟨sub, hsub, heq, repair_step_time cfg, ?_⟩
  rw [validate_chart, heq, List.length_map]
  exact hsub.length_le

end Stepageddon
